import Mathlib

set_option maxRecDepth 8192

/-!
# Hotel reservation allocator: shallow embedding and verification

This file embeds the `Hotel` class of `HotelReservations.cpp` in Lean and
proves properties of its three booking algorithms (`Book`, `Book_V2`,
`Book_V3`).

Modelling conventions:
* `std::vector<std::vector<bool>> occupied_bf` and the per-room
  `std::bitset<366> occupied_bs` are both modelled as `List (List Bool)`
  (a bitset is a fixed array of bits; `test`/`set` become `List.getD` /
  `List.set`).
* `std::vector<int> utilization` is modelled as `List Nat`: the field starts
  at 0 and is only ever incremented by positive amounts, so it never holds a
  negative value.
* Machine `int` day/room arithmetic stays within `[-2^31, 2^31)` for all
  inputs considered (days are compared against 366, rooms are vector
  indices), so `Int` (for request bounds, which may be negative) and `Nat`
  (for indices after validation) model it exactly.
* `std::string` results `"Accept"` / `"Decline"` are kept as `String`.
* `std::priority_queue<std::pair<int,int>>` is used only to obtain the
  maximum element (`pq.top()` after pushing everything); it is modelled by a
  fold computing the maximum of the pushed list under the lexicographic
  order on `Int × Int`, which is what `top()` returns.
-/

/-- The constant `Hotel::MaxDays`. -/
def MaxDays : Nat := 366

/-- The state of a `Hotel` object: its four data members. -/
structure Hotel where
  size : Nat
  occupied_bf : List (List Bool)
  occupied_bs : List (List Bool)
  utilization : List Nat
  deriving Repr, DecidableEq

namespace Hotel

/-- The constructor `Hotel(int s)`: all tables zero-initialised. -/
def new (s : Nat) : Hotel :=
  { size := s
  , occupied_bf := List.replicate s (List.replicate MaxDays false)
  , occupied_bs := List.replicate s (List.replicate MaxDays false)
  , utilization := List.replicate s 0 }

/-- The loop `for (d = start; d <= end; ++d) if (row[d]) ...`: `true` iff no
day in the `n`-day window starting at `s` is occupied in `row`.
(`row.test(d)` / `row[d]` with `d` in bounds is `row.getD d false`.) -/
def isFreeRange : List Bool → Nat → Nat → Bool
  | _, _, 0 => true
  | row, s, n + 1 => !(row.getD s false) && isFreeRange row (s + 1) n

/-- The loop `for (d = start; d <= end; ++d) row[d] = true;` (also
`bitset::set`), marking an `n`-day window starting at `s`. -/
def setDays : List Bool → Nat → Nat → List Bool
  | row, _, 0 => row
  | row, s, n + 1 => setDays (row.set s true) (s + 1) n

/-- The method `Hotel::countUtilization_bf`: counts occupied days of a row by scanning
all `MaxDays` day indices. -/
def countUtil (row : List Bool) : Nat :=
  (List.range MaxDays).foldl (fun acc d => if row.getD d false then acc + 1 else acc) 0

/-- The free-room search shared by all three variants: collect every room
index whose occupancy row is free on the requested window.  `tbl` is the
occupancy table the variant reads (`occupied_bf` or `occupied_bs`). -/
def freeRoomsOf (tbl : List (List Bool)) (size s n : Nat) : List Nat :=
  (List.range size).filter fun r => isFreeRange (tbl.getD r []) s n

/-- The selection loop of `Book`: running `(maxOccupiedCount, chosenRoom)`
pair, both initialised to `-1`, updated whenever
`count > maxOccupiedCount || (count == maxOccupiedCount && (chosenRoom == -1 || r < chosenRoom))`. -/
def selectLoop (util : Nat → Nat) : List Nat → Int × Int → Int × Int
  | [], acc => acc
  | r :: rs, (maxC, chosen) =>
      let c : Int := (util r : Int)
      if c > maxC || (c == maxC && (chosen == -1 || (r : Int) < chosen)) then
        selectLoop util rs (c, (r : Int))
      else
        selectLoop util rs (maxC, chosen)

/-- The room `Book` assigns, given the (nonempty) free-room list: the second
component of the selection loop's final state. -/
def chooseA (util : Nat → Nat) (freeRooms : List Nat) : Nat :=
  (selectLoop util freeRooms (-1, -1)).2.toNat

/-- Lexicographic `<` on `std::pair<int,int>`. -/
def pairLt (a b : Int × Int) : Bool :=
  a.1 < b.1 || (a.1 == b.1 && a.2 < b.2)

/-- The result of `pq.top()` after pushing `x` and then every element of `xs` into a
`std::priority_queue<std::pair<int,int>>`: the maximum pushed element under
the lexicographic order. -/
def pqTop (x : Int × Int) (xs : List (Int × Int)) : Int × Int :=
  xs.foldl (fun top y => if pairLt top y then y else top) x

/-- The room `Book_V2` / `Book_V3` assigns: push `(utilization, -room)` for
every free room, then negate the second component of the top pair. -/
def choosePQ (util : Nat → Nat) (r0 : Nat) (rs : List Nat) : Nat :=
  (- (pqTop ((util r0 : Int), -(r0 : Int))
        (rs.map fun r => ((util r : Int), -(r : Int)))).2).toNat

/-- The method `Hotel::Book` (Variant A, brute force). -/
def Book (h : Hotel) (start end_ : Int) : String × Hotel :=
  if start < 0 || end_ ≥ (MaxDays : Int) || start > end_ then
    ("Decline", h)
  else
    let s := start.toNat
    let n := end_.toNat + 1 - s
    match freeRoomsOf h.occupied_bf h.size s n with
    | [] => ("Decline", h)
    | r0 :: rs =>
      let chosenRoom := chooseA (fun r => countUtil (h.occupied_bf.getD r [])) (r0 :: rs)
      ("Accept",
        { h with occupied_bf :=
            h.occupied_bf.set chosenRoom (setDays (h.occupied_bf.getD chosenRoom []) s n) })

/-- The method `Hotel::Book_V2` (Variant B, heap-based). -/
def Book_V2 (h : Hotel) (start end_ : Int) : String × Hotel :=
  if start < 0 || end_ ≥ (MaxDays : Int) || start > end_ then
    ("Decline", h)
  else
    let s := start.toNat
    let n := end_.toNat + 1 - s
    match freeRoomsOf h.occupied_bf h.size s n with
    | [] => ("Decline", h)
    | r0 :: rs =>
      let chosenRoom := choosePQ (fun r => countUtil (h.occupied_bf.getD r [])) r0 rs
      ("Accept",
        { h with occupied_bf :=
            h.occupied_bf.set chosenRoom (setDays (h.occupied_bf.getD chosenRoom []) s n) })

/-- The method `Hotel::Book_V3` (Variant C, bitset + utilization array). -/
def Book_V3 (h : Hotel) (start end_ : Int) : String × Hotel :=
  if start < 0 || end_ ≥ (MaxDays : Int) || start > end_ then
    ("Decline", h)
  else
    let s := start.toNat
    let n := end_.toNat + 1 - s
    match freeRoomsOf h.occupied_bs h.size s n with
    | [] => ("Decline", h)
    | r0 :: rs =>
      let chosenRoom := choosePQ (fun r => h.utilization.getD r 0) r0 rs
      ("Accept",
        { h with
            occupied_bs :=
              h.occupied_bs.set chosenRoom (setDays (h.occupied_bs.getD chosenRoom []) s n)
          , utilization :=
              h.utilization.set chosenRoom (h.utilization.getD chosenRoom 0 + n) })

/-- The room an accepted `Book` call assigns (meaningful only when the free
list is nonempty, i.e. on the `Accept` path). -/
def bookChoice (h : Hotel) (start end_ : Int) : Nat :=
  chooseA (fun r => countUtil (h.occupied_bf.getD r []))
    (freeRoomsOf h.occupied_bf h.size start.toNat (end_.toNat + 1 - start.toNat))

/-- The room an accepted `Book_V2` call assigns. -/
def bookChoiceV2 (h : Hotel) (start end_ : Int) : Nat :=
  match freeRoomsOf h.occupied_bf h.size start.toNat (end_.toNat + 1 - start.toNat) with
  | [] => 0
  | r0 :: rs => choosePQ (fun r => countUtil (h.occupied_bf.getD r [])) r0 rs

/-- The room an accepted `Book_V3` call assigns. -/
def bookChoiceV3 (h : Hotel) (start end_ : Int) : Nat :=
  match freeRoomsOf h.occupied_bs h.size start.toNat (end_.toNat + 1 - start.toNat) with
  | [] => 0
  | r0 :: rs => choosePQ (fun r => h.utilization.getD r 0) r0 rs

/-- Replay a request sequence through `Book`, collecting the outcomes. -/
def replayA : Hotel → List (Int × Int) → List String
  | _, [] => []
  | h, (s, e) :: rest =>
      let res := h.Book s e
      res.1 :: replayA res.2 rest

/-- Replay a request sequence through `Book_V2`, collecting the outcomes. -/
def replayB : Hotel → List (Int × Int) → List String
  | _, [] => []
  | h, (s, e) :: rest =>
      let res := h.Book_V2 s e
      res.1 :: replayB res.2 rest

/-- Replay a request sequence through `Book_V3`, collecting the outcomes. -/
def replayC : Hotel → List (Int × Int) → List String
  | _, [] => []
  | h, (s, e) :: rest =>
      let res := h.Book_V3 s e
      res.1 :: replayC res.2 rest

/-- Run a request sequence through `Book_V3`, keeping only the final state. -/
def runV3 (h : Hotel) (reqs : List (Int × Int)) : Hotel :=
  reqs.foldl (fun h r => (h.Book_V3 r.1 r.2).2) h

/-- Which member function a caller invokes. -/
inductive Variant where
  | A | B | C
  deriving Repr, DecidableEq

/-- State effect of one call of the given variant. -/
def applyCall (h : Hotel) : Variant × Int × Int → Hotel
  | (Variant.A, s, e) => (h.Book s e).2
  | (Variant.B, s, e) => (h.Book_V2 s e).2
  | (Variant.C, s, e) => (h.Book_V3 s e).2

/-- State after a sequence of calls of arbitrary variants. -/
def runCalls (h : Hotel) (calls : List (Variant × Int × Int)) : Hotel :=
  calls.foldl applyCall h

/-- Every row of an occupancy table has the fixed horizon length.  This
holds for every table the program ever builds. -/
def RowsWF (tbl : List (List Bool)) : Prop :=
  ∀ row ∈ tbl, row.length = MaxDays

/-- The Variant C state invariant: the tables have `size` entries, rows have
horizon length, and `utilization[r]` is the population count of room `r`'s
occupancy bitmap. -/
def UtilInv (h : Hotel) : Prop :=
  h.occupied_bs.length = h.size ∧
  h.utilization.length = h.size ∧
  RowsWF h.occupied_bs ∧
  ∀ r, r < h.size → h.utilization.getD r 0 = (h.occupied_bs.getD r []).count true

/-- Coupling between a Variant A/B run and a Variant C run: same pool size,
the boolean table of one mirrors the bitmap table of the other, and the
Variant C state satisfies its utilization invariant. -/
def Sim (hA hC : Hotel) : Prop :=
  hA.size = hC.size ∧
  hA.occupied_bf = hC.occupied_bs ∧
  hA.occupied_bf.length = hA.size ∧
  RowsWF hA.occupied_bf ∧
  UtilInv hC

/-- Canonical one-step selection: keep the incumbent `b` unless challenger
`r` has strictly higher utilization, or equal utilization and smaller
index. -/
def bestStep (util : Nat → Nat) (b r : Nat) : Nat :=
  if util b < util r || (util r == util b && r < b) then r else b

/-- Canonical selection over a free-room list: fold `bestStep` from the head.
Both the `Book` selection loop and the priority-queue selection compute
this room. -/
def bestRoom (util : Nat → Nat) (r0 : Nat) (rs : List Nat) : Nat :=
  rs.foldl (bestStep util) r0

/-- The selection policy's specification: among the free rooms, `c` is free,
has maximal `countUtilization` (occupied days counted over the whole
horizon), and is the least index among the free rooms attaining that
maximum. -/
def ChoiceMaximal (tbl : List (List Bool)) (size s n c : Nat) : Prop :=
  c ∈ freeRoomsOf tbl size s n ∧
  (∀ r ∈ freeRoomsOf tbl size s n, countUtil (tbl.getD r []) ≤ countUtil (tbl.getD c [])) ∧
  (∀ r ∈ freeRoomsOf tbl size s n,
    countUtil (tbl.getD r []) = countUtil (tbl.getD c []) → c ≤ r)

end Hotel

namespace Hotel

lemma getD_set (row : List Bool) (i d : Nat) (b : Bool) :
    (row.set i b).getD d false =
      if i = d ∧ i < row.length then b else row.getD d false := by
  by_cases hid : i = d
  · subst hid
    by_cases hlen : i < row.length
    · simp [List.getD_eq_getElem?_getD, List.getElem?_set_self hlen, hlen]
    · have h1 : row.length ≤ i := le_of_not_lt hlen
      have h2 : (row.set i b).length ≤ i := by rw [List.length_set]; exact h1
      simp [List.getD_eq_getElem?_getD, List.getElem?_eq_none h1, List.getElem?_eq_none h2, hlen]
  · simp [List.getD_eq_getElem?_getD, List.getElem?_set_ne hid, hid]

lemma count_set_true : ∀ (row : List Bool) (d : Nat),
    d < row.length → row.getD d false = false →
    (row.set d true).count true = row.count true + 1 := by
  intro row
  induction row with
  | nil => intro d h; simp at h
  | cons b t ih =>
      intro d hd hfalse
      cases d with
      | zero =>
          simp [List.getD] at hfalse
          subst hfalse
          simp [List.count_cons]
      | succ d =>
          have hd' : d < t.length := by simpa using hd
          have hfalse' : t.getD d false = false := by simpa [List.getD] using hfalse
          simp [List.set, List.count_cons, ih d hd' hfalse']
          omega

lemma setDays_length : ∀ (n : Nat) (row : List Bool) (s : Nat),
    (setDays row s n).length = row.length := by
  intro n
  induction n with
  | zero => intro row s; rfl
  | succ n ih =>
      intro row s
      rw [show setDays row s (n + 1) = setDays (row.set s true) (s + 1) n from rfl, ih,
        List.length_set]

lemma setDays_getD : ∀ (n : Nat) (row : List Bool) (s d : Nat),
    (setDays row s n).getD d false =
      if s ≤ d ∧ d < s + n ∧ d < row.length then true else row.getD d false := by
  intro n
  induction n with
  | zero =>
      intro row s d
      rw [show setDays row s 0 = row from rfl, if_neg]
      omega
  | succ n ih =>
      intro row s d
      rw [show setDays row s (n + 1) = setDays (row.set s true) (s + 1) n from rfl, ih,
        List.length_set, getD_set]
      split_ifs <;> first | rfl | omega

lemma isFreeRange_iff : ∀ (n : Nat) (row : List Bool) (s : Nat),
    isFreeRange row s n = true ↔ ∀ d, s ≤ d → d < s + n → row.getD d false = false := by
  intro n
  induction n with
  | zero =>
      intro row s
      simp [isFreeRange]
      intro d h1 h2
      omega
  | succ n ih =>
      intro row s
      rw [show isFreeRange row s (n + 1) = (!(row.getD s false) && isFreeRange row (s + 1) n)
        from rfl]
      constructor
      · intro h d h1 h2
        rw [Bool.and_eq_true, Bool.not_eq_true'] at h
        rcases Nat.eq_or_lt_of_le h1 with heq | hlt
        · rw [← heq]; exact h.1
        · exact (ih row (s + 1)).1 h.2 d hlt (by omega)
      · intro h
        rw [Bool.and_eq_true, Bool.not_eq_true']
        exact ⟨h s le_rfl (by omega), (ih row (s + 1)).2 fun d h1 h2 => h d (by omega) (by omega)⟩

lemma count_setDays : ∀ (n : Nat) (row : List Bool) (s : Nat),
    s + n ≤ row.length → isFreeRange row s n = true →
    (setDays row s n).count true = row.count true + n := by
  intro n
  induction n with
  | zero => intro row s _ _; rfl
  | succ n ih =>
      intro row s hlen hfree
      have hfree' := (isFreeRange_iff (n + 1) row s).1 hfree
      have hs : row.getD s false = false := hfree' s le_rfl (by omega)
      have hslen : s < row.length := by omega
      have hrest : isFreeRange (row.set s true) (s + 1) n = true := by
        rw [isFreeRange_iff]
        intro d h1 h2
        rw [getD_set, if_neg (by omega)]
        exact hfree' d (by omega) (by omega)
      rw [show setDays row s (n + 1) = setDays (row.set s true) (s + 1) n from rfl,
        ih (row.set s true) (s + 1) (by rw [List.length_set]; omega) hrest,
        count_set_true row s hslen hs]
      omega

lemma countUtil_go : ∀ (m : Nat) (row : List Bool) (acc : Nat),
    (List.range m).foldl (fun acc d => if row.getD d false then acc + 1 else acc) acc
      = acc + (row.take m).count true := by
  intro m
  induction m with
  | zero => intro row acc; simp
  | succ m ih =>
      intro row acc
      rw [List.range_succ, List.foldl_append, ih, List.take_succ, List.count_append]
      cases hm : row[m]? with
      | none =>
          have h1 : row.getD m false = false := by
            rw [List.getD_eq_getElem?_getD, hm]; rfl
          simp [h1, hm]
      | some b =>
          have h1 : row.getD m false = b := by
            rw [List.getD_eq_getElem?_getD, hm]; rfl
          cases b
          · simp [h1, hm, List.count_singleton]
          · simp [h1, hm, List.count_singleton]
            omega

lemma countUtil_eq_count (row : List Bool) (hlen : row.length = MaxDays) :
    countUtil row = row.count true := by
  rw [countUtil, countUtil_go, Nat.zero_add, ← hlen, List.take_length]

end Hotel

namespace Hotel

lemma selectCond_iff (util : Nat → Nat) (r b : Nat) :
    ((util r : Int) > (util b : Int) ||
      ((util r : Int) == (util b : Int) && (((b : Nat) : Int) == -1 || (r : Int) < (b : Int)))) = true
    ↔ (util b < util r ∨ (util r = util b ∧ r < b)) := by
  simp only [Bool.or_eq_true, Bool.and_eq_true, decide_eq_true_eq, beq_iff_eq, gt_iff_lt]
  omega

lemma bestStep_eq (util : Nat → Nat) (b r : Nat) :
    bestStep util b r = if util b < util r ∨ (util r = util b ∧ r < b) then r else b := by
  rw [bestStep]
  have hiff : (util b < util r || (util r == util b && r < b)) = true
      ↔ (util b < util r ∨ (util r = util b ∧ r < b)) := by
    simp only [Bool.or_eq_true, Bool.and_eq_true, decide_eq_true_eq, beq_iff_eq]
  by_cases hc : util b < util r ∨ (util r = util b ∧ r < b)
  · rw [if_pos (hiff.2 hc), if_pos hc]
  · rw [if_neg (fun h => hc (hiff.1 h)), if_neg hc]

lemma selectLoop_go : ∀ (rs : List Nat) (util : Nat → Nat) (b : Nat),
    selectLoop util rs ((util b : Int), (b : Int)) =
      ((util (bestRoom util b rs) : Int), ((bestRoom util b rs : Nat) : Int)) := by
  intro rs
  induction rs with
  | nil => intro util b; rfl
  | cons r rs ih =>
      intro util b
      rw [show selectLoop util (r :: rs) ((util b : Int), (b : Int)) =
          (if ((util r : Int) > (util b : Int) ||
              ((util r : Int) == (util b : Int) &&
                (((b : Nat) : Int) == -1 || (r : Int) < (b : Int)))) then
            selectLoop util rs ((util r : Int), (r : Int))
          else
            selectLoop util rs ((util b : Int), (b : Int))) from rfl,
        show bestRoom util b (r :: rs) = bestRoom util (bestStep util b r) rs from rfl,
        bestStep_eq]
      by_cases hc : util b < util r ∨ (util r = util b ∧ r < b)
      · rw [if_pos ((selectCond_iff util r b).2 hc), if_pos hc, ih]
      · rw [if_neg (fun h => hc ((selectCond_iff util r b).1 h)), if_neg hc, ih]

lemma pairLt_iff (util : Nat → Nat) (b r : Nat) :
    pairLt ((util b : Int), -(b : Int)) ((util r : Int), -(r : Int)) = true
    ↔ (util b < util r ∨ (util r = util b ∧ r < b)) := by
  rw [pairLt]
  simp only [Bool.or_eq_true, Bool.and_eq_true, decide_eq_true_eq, beq_iff_eq]
  omega

lemma pqTop_go : ∀ (rs : List Nat) (util : Nat → Nat) (b : Nat),
    pqTop ((util b : Int), -(b : Int)) (rs.map fun r => ((util r : Int), -(r : Int)))
      = ((util (bestRoom util b rs) : Int), -((bestRoom util b rs : Nat) : Int)) := by
  intro rs
  induction rs with
  | nil => intro util b; rfl
  | cons r rs ih =>
      intro util b
      rw [show pqTop ((util b : Int), -(b : Int))
            ((r :: rs).map fun r => ((util r : Int), -(r : Int)))
          = pqTop (if pairLt ((util b : Int), -(b : Int)) ((util r : Int), -(r : Int)) then
              ((util r : Int), -(r : Int)) else ((util b : Int), -(b : Int)))
            (rs.map fun r => ((util r : Int), -(r : Int))) from rfl,
        show bestRoom util b (r :: rs) = bestRoom util (bestStep util b r) rs from rfl,
        bestStep_eq]
      by_cases hc : util b < util r ∨ (util r = util b ∧ r < b)
      · rw [if_pos ((pairLt_iff util b r).2 hc), if_pos hc, ih]
      · rw [if_neg (fun h => hc ((pairLt_iff util b r).1 h)), if_neg hc, ih]

lemma chooseA_eq (util : Nat → Nat) (r0 : Nat) (rs : List Nat) :
    chooseA util (r0 :: rs) = bestRoom util r0 rs := by
  rw [chooseA,
    show selectLoop util (r0 :: rs) (-1, -1) =
      (if ((util r0 : Int) > (-1 : Int) ||
          ((util r0 : Int) == (-1 : Int) && ((-1 : Int) == -1 || (r0 : Int) < (-1 : Int)))) then
        selectLoop util rs ((util r0 : Int), (r0 : Int))
      else
        selectLoop util rs (-1, -1)) from rfl,
    if_pos (by simp only [Bool.or_eq_true, decide_eq_true_eq, gt_iff_lt]; left; omega),
    selectLoop_go]
  omega

lemma choosePQ_eq (util : Nat → Nat) (r0 : Nat) (rs : List Nat) :
    choosePQ util r0 rs = bestRoom util r0 rs := by
  rw [choosePQ, pqTop_go]
  omega

lemma bestRoom_mem : ∀ (rs : List Nat) (util : Nat → Nat) (b : Nat),
    bestRoom util b rs ∈ b :: rs := by
  intro rs
  induction rs with
  | nil => intro util b; simp [bestRoom]
  | cons r rs ih =>
      intro util b
      rw [show bestRoom util b (r :: rs) = bestRoom util (bestStep util b r) rs from rfl,
        bestStep_eq]
      split_ifs
      · rcases List.mem_cons.1 (ih util r) with h | h
        · rw [h]; simp
        · simp [h]
      · rcases List.mem_cons.1 (ih util b) with h | h
        · rw [h]; simp
        · simp [h]

lemma bestRoom_opt : ∀ (rs : List Nat) (util : Nat → Nat) (b x : Nat), x ∈ b :: rs →
    util x < util (bestRoom util b rs) ∨
      (util x = util (bestRoom util b rs) ∧ bestRoom util b rs ≤ x) := by
  intro rs
  induction rs with
  | nil =>
      intro util b x hx
      simp at hx
      subst hx
      simp [bestRoom]
  | cons r rs ih =>
      intro util b x hx
      rw [show bestRoom util b (r :: rs) = bestRoom util (bestStep util b r) rs from rfl]
      have hbest := ih util (bestStep util b r) (bestStep util b r) (List.mem_cons_self _ _)
      rcases List.mem_cons.1 hx with hx | hx
      · subst hx
        rw [bestStep_eq] at hbest ⊢
        split_ifs at hbest ⊢ with hc
        · omega
        · exact hbest
      · rcases List.mem_cons.1 hx with hx | hx
        · subst hx
          rw [bestStep_eq] at hbest ⊢
          split_ifs at hbest ⊢ with hc
          · exact hbest
          · omega
        · exact ih util (bestStep util b r) x (List.mem_cons_of_mem _ hx)

lemma bestRoom_congr : ∀ (rs : List Nat) (u1 u2 : Nat → Nat) (b : Nat),
    u1 b = u2 b → (∀ r ∈ rs, u1 r = u2 r) → bestRoom u1 b rs = bestRoom u2 b rs := by
  intro rs
  induction rs with
  | nil => intro u1 u2 b _ _; rfl
  | cons r rs ih =>
      intro u1 u2 b hb hrs
      rw [show bestRoom u1 b (r :: rs) = bestRoom u1 (bestStep u1 b r) rs from rfl,
        show bestRoom u2 b (r :: rs) = bestRoom u2 (bestStep u2 b r) rs from rfl]
      have hr : u1 r = u2 r := hrs r (by simp)
      have hstep : bestStep u1 b r = bestStep u2 b r := by
        rw [bestStep_eq, bestStep_eq, hb, hr]
      rw [hstep]
      apply ih
      · rw [bestStep_eq]
        split_ifs
        · exact hr
        · exact hb
      · intro x hx
        exact hrs x (by simp [hx])

end Hotel

namespace Hotel

lemma getD_set' {α : Type} (l : List α) (i d : Nat) (v dflt : α) :
    (l.set i v).getD d dflt = if i = d ∧ i < l.length then v else l.getD d dflt := by
  by_cases hid : i = d
  · subst hid
    by_cases hlen : i < l.length
    · simp [List.getD_eq_getElem?_getD, List.getElem?_set_self hlen, hlen]
    · have h1 : l.length ≤ i := le_of_not_lt hlen
      have h2 : (l.set i v).length ≤ i := by rw [List.length_set]; exact h1
      simp [List.getD_eq_getElem?_getD, List.getElem?_eq_none h1, List.getElem?_eq_none h2, hlen]
  · simp [List.getD_eq_getElem?_getD, List.getElem?_set_ne hid, hid]

lemma getD_mem {α : Type} (l : List α) (n : Nat) (d : α) (h : n < l.length) :
    l.getD n d ∈ l := by
  rw [List.getD_eq_getElem?_getD, List.getElem?_eq_getElem h, Option.getD_some]
  exact List.getElem_mem h

lemma getD_replicate {α : Type} (n r : Nat) (x d : α) (h : r < n) :
    (List.replicate n x).getD r d = x := by
  rw [List.getD_eq_getElem?_getD, List.getElem?_replicate, if_pos h, Option.getD_some]

lemma mem_freeRoomsOf {tbl : List (List Bool)} {size s n r : Nat} :
    r ∈ freeRoomsOf tbl size s n ↔ r < size ∧ isFreeRange (tbl.getD r []) s n = true := by
  rw [freeRoomsOf, List.mem_filter, List.mem_range]

lemma guard_bounds {start end_ : Int}
    (hguard : ¬((start < 0 || end_ ≥ (MaxDays : Int) || start > end_) = true)) :
    0 ≤ start ∧ start ≤ end_ ∧ end_ < (MaxDays : Int) := by
  simp only [Bool.or_eq_true, decide_eq_true_eq, not_or, ge_iff_le, gt_iff_lt, not_lt,
    not_le] at hguard
  omega

lemma Book_eq_Book_V2 (h : Hotel) (start end_ : Int) :
    h.Book start end_ = h.Book_V2 start end_ := by
  simp only [Book, Book_V2]
  split_ifs with hguard
  · rfl
  · cases hfr : freeRoomsOf h.occupied_bf h.size start.toNat (end_.toNat + 1 - start.toNat) with
    | nil => rfl
    | cons r0 rs =>
        dsimp only
        rw [chooseA_eq, choosePQ_eq]

lemma replayA_eq_replayB : ∀ (reqs : List (Int × Int)) (h : Hotel),
    replayA h reqs = replayB h reqs := by
  intro reqs
  induction reqs with
  | nil => intro h; rfl
  | cons req rest ih =>
      intro h
      cases req with
      | mk s e => simp only [replayA, replayB, Book_eq_Book_V2, ih]

lemma UtilInv_new (n : Nat) : UtilInv (new n) := by
  refine ⟨List.length_replicate .., List.length_replicate .., ?_, ?_⟩
  · intro row hrow
    rw [List.eq_of_mem_replicate hrow]
    exact List.length_replicate ..
  · intro r hr
    rw [new] at hr ⊢
    rw [getD_replicate _ _ _ _ hr, getD_replicate _ _ _ _ hr, List.count_replicate]
    rfl

lemma UtilInv_Book_V3 (h : Hotel) (hinv : UtilInv h) (start end_ : Int) :
    UtilInv (h.Book_V3 start end_).2 := by
  obtain ⟨hlen_bs, hlen_u, hwf, hutil⟩ := hinv
  rw [Book_V3]
  split_ifs with hguard
  · exact ⟨hlen_bs, hlen_u, hwf, hutil⟩
  · obtain ⟨hs0, hse, he⟩ := guard_bounds hguard
    have he' : end_ < 366 := by simpa [MaxDays] using he
    dsimp only
    cases hfr : freeRoomsOf h.occupied_bs h.size start.toNat (end_.toNat + 1 - start.toNat) with
    | nil => exact ⟨hlen_bs, hlen_u, hwf, hutil⟩
    | cons r0 rs =>
        dsimp only
        have hc_mem : choosePQ (fun r => h.utilization.getD r 0) r0 rs ∈
            freeRoomsOf h.occupied_bs h.size start.toNat (end_.toNat + 1 - start.toNat) := by
          rw [hfr, choosePQ_eq]
          exact bestRoom_mem rs _ r0
        set c := choosePQ (fun r => h.utilization.getD r 0) r0 rs with hc_def
        obtain ⟨hc_lt, hc_free⟩ := mem_freeRoomsOf.1 hc_mem
        have hrow_len : (h.occupied_bs.getD c []).length = MaxDays :=
          hwf _ (getD_mem _ _ _ (by omega))
        refine ⟨?_, ?_, ?_, ?_⟩
        · rw [List.length_set]; exact hlen_bs
        · rw [List.length_set]; exact hlen_u
        · intro row hrow
          rcases List.mem_or_eq_of_mem_set hrow with hmem | heq
          · exact hwf _ hmem
          · rw [heq, setDays_length]
            exact hrow_len
        · intro r hr
          rw [getD_set', getD_set', hlen_u, hlen_bs]
          by_cases hrc : c = r
          · subst hrc
            rw [if_pos ⟨rfl, by omega⟩, if_pos ⟨rfl, by omega⟩,
              count_setDays _ _ _ (by rw [hrow_len]; rw [show MaxDays = 366 from rfl]; omega) hc_free,
              hutil c (by omega)]
          · rw [if_neg (by tauto), if_neg (by tauto)]
            exact hutil r hr

end Hotel

namespace Hotel

lemma Book_guard (h : Hotel) (start end_ : Int)
    (hg : (start < 0 || end_ ≥ (MaxDays : Int) || start > end_) = true) :
    h.Book start end_ = ("Decline", h) := by
  rw [Book, if_pos hg]

lemma Book_V2_guard (h : Hotel) (start end_ : Int)
    (hg : (start < 0 || end_ ≥ (MaxDays : Int) || start > end_) = true) :
    h.Book_V2 start end_ = ("Decline", h) := by
  rw [Book_V2, if_pos hg]

lemma Book_V3_guard (h : Hotel) (start end_ : Int)
    (hg : (start < 0 || end_ ≥ (MaxDays : Int) || start > end_) = true) :
    h.Book_V3 start end_ = ("Decline", h) := by
  rw [Book_V3, if_pos hg]

lemma Book_nofree (h : Hotel) (start end_ : Int)
    (hg : (start < 0 || end_ ≥ (MaxDays : Int) || start > end_) = false)
    (hfr : freeRoomsOf h.occupied_bf h.size start.toNat (end_.toNat + 1 - start.toNat) = []) :
    h.Book start end_ = ("Decline", h) := by
  rw [Book, if_neg (by simp [hg])]
  dsimp only
  rw [hfr]

lemma Book_V3_nofree (h : Hotel) (start end_ : Int)
    (hg : (start < 0 || end_ ≥ (MaxDays : Int) || start > end_) = false)
    (hfr : freeRoomsOf h.occupied_bs h.size start.toNat (end_.toNat + 1 - start.toNat) = []) :
    h.Book_V3 start end_ = ("Decline", h) := by
  rw [Book_V3, if_neg (by simp [hg])]
  dsimp only
  rw [hfr]

lemma Book_accept (h : Hotel) (start end_ : Int) (r0 : Nat) (rs : List Nat)
    (hg : (start < 0 || end_ ≥ (MaxDays : Int) || start > end_) = false)
    (hfr : freeRoomsOf h.occupied_bf h.size start.toNat (end_.toNat + 1 - start.toNat)
      = r0 :: rs) :
    h.Book start end_ =
      ("Accept",
        { h with occupied_bf :=
            (h.occupied_bf.set (bookChoice h start end_)
              (setDays (h.occupied_bf.getD (bookChoice h start end_) [])
                start.toNat (end_.toNat + 1 - start.toNat))) }) := by
  rw [Book, if_neg (by simp [hg])]
  dsimp only
  rw [hfr, bookChoice, hfr]

lemma Book_V3_accept (h : Hotel) (start end_ : Int) (r0 : Nat) (rs : List Nat)
    (hg : (start < 0 || end_ ≥ (MaxDays : Int) || start > end_) = false)
    (hfr : freeRoomsOf h.occupied_bs h.size start.toNat (end_.toNat + 1 - start.toNat)
      = r0 :: rs) :
    h.Book_V3 start end_ =
      ("Accept",
        { h with
            occupied_bs :=
              (h.occupied_bs.set (bookChoiceV3 h start end_)
                (setDays (h.occupied_bs.getD (bookChoiceV3 h start end_) [])
                  start.toNat (end_.toNat + 1 - start.toNat)))
          , utilization :=
              (h.utilization.set (bookChoiceV3 h start end_)
                (h.utilization.getD (bookChoiceV3 h start end_) 0
                  + (end_.toNat + 1 - start.toNat))) }) := by
  rw [Book_V3, if_neg (by simp [hg])]
  dsimp only
  rw [hfr, bookChoiceV3, hfr]

lemma bookChoice_eq_best (h : Hotel) (start end_ : Int) (r0 : Nat) (rs : List Nat)
    (hfr : freeRoomsOf h.occupied_bf h.size start.toNat (end_.toNat + 1 - start.toNat)
      = r0 :: rs) :
    bookChoice h start end_
      = bestRoom (fun r => countUtil (h.occupied_bf.getD r [])) r0 rs := by
  rw [bookChoice, hfr, chooseA_eq]

lemma bookChoiceV2_eq_best (h : Hotel) (start end_ : Int) (r0 : Nat) (rs : List Nat)
    (hfr : freeRoomsOf h.occupied_bf h.size start.toNat (end_.toNat + 1 - start.toNat)
      = r0 :: rs) :
    bookChoiceV2 h start end_
      = bestRoom (fun r => countUtil (h.occupied_bf.getD r [])) r0 rs := by
  rw [bookChoiceV2, hfr]
  dsimp only
  rw [choosePQ_eq]

lemma bookChoiceV3_eq_best (h : Hotel) (start end_ : Int) (r0 : Nat) (rs : List Nat)
    (hfr : freeRoomsOf h.occupied_bs h.size start.toNat (end_.toNat + 1 - start.toNat)
      = r0 :: rs) :
    bookChoiceV3 h start end_
      = bestRoom (fun r => h.utilization.getD r 0) r0 rs := by
  rw [bookChoiceV3, hfr]
  dsimp only
  rw [choosePQ_eq]

end Hotel

namespace Hotel

lemma Sim_util_agree (hA hC : Hotel) (hsim : Sim hA hC) (r : Nat) (hr : r < hC.size) :
    countUtil (hA.occupied_bf.getD r []) = hC.utilization.getD r 0 := by
  obtain ⟨hsz, htbl, hlen_bf, hwf_bf, hlen_bs, hlen_u, hwf_bs, hutil⟩ := hsim
  rw [htbl, countUtil_eq_count _ (hwf_bs _ (getD_mem _ _ _ (by omega))), hutil r hr]

lemma Sim_step (hA hC : Hotel) (hsim : Sim hA hC) (start end_ : Int) :
    (hA.Book start end_).1 = (hC.Book_V3 start end_).1 ∧
    Sim (hA.Book start end_).2 (hC.Book_V3 start end_).2 := by
  obtain ⟨hsz, htbl, hlen_bf, hwf_bf, hinvC⟩ := hsim
  by_cases hg : (start < 0 || end_ ≥ (MaxDays : Int) || start > end_) = true
  · rw [Book_guard _ _ _ hg, Book_V3_guard _ _ _ hg]
    exact ⟨rfl, hsz, htbl, hlen_bf, hwf_bf, hinvC⟩
  · have hg' : (start < 0 || end_ ≥ (MaxDays : Int) || start > end_) = false :=
      Bool.eq_false_iff.2 hg
    obtain ⟨hs0, hse, he⟩ := guard_bounds hg
    have he' : end_ < 366 := by simpa [MaxDays] using he
    have hfr_eq : freeRoomsOf hA.occupied_bf hA.size start.toNat (end_.toNat + 1 - start.toNat)
        = freeRoomsOf hC.occupied_bs hC.size start.toNat (end_.toNat + 1 - start.toNat) := by
      rw [htbl, hsz]
    cases hfr : freeRoomsOf hC.occupied_bs hC.size start.toNat (end_.toNat + 1 - start.toNat)
      with
    | nil =>
        rw [Book_nofree _ _ _ hg' (hfr_eq.trans hfr), Book_V3_nofree _ _ _ hg' hfr]
        exact ⟨rfl, hsz, htbl, hlen_bf, hwf_bf, hinvC⟩
    | cons r0 rs =>
        have hchoice : bookChoice hA start end_ = bookChoiceV3 hC start end_ := by
          rw [bookChoice_eq_best hA start end_ r0 rs (hfr_eq.trans hfr),
            bookChoiceV3_eq_best hC start end_ r0 rs hfr]
          refine bestRoom_congr rs _ _ r0 ?_ ?_
          · exact Sim_util_agree hA hC ⟨hsz, htbl, hlen_bf, hwf_bf, hinvC⟩ r0
              (mem_freeRoomsOf.1 (hfr ▸ List.mem_cons_self r0 rs)).1
          · intro x hx
            exact Sim_util_agree hA hC ⟨hsz, htbl, hlen_bf, hwf_bf, hinvC⟩ x
              (mem_freeRoomsOf.1 (hfr ▸ List.mem_cons_of_mem r0 hx)).1
        have hinvC' : UtilInv (hC.Book_V3 start end_).2 := UtilInv_Book_V3 hC hinvC start end_
        have hc_lt : bookChoiceV3 hC start end_ < hC.size := by
          rw [bookChoiceV3_eq_best hC start end_ r0 rs hfr]
          exact (mem_freeRoomsOf.1 (hfr ▸ bestRoom_mem rs _ r0)).1
        rw [Book_accept _ _ _ r0 rs hg' (hfr_eq.trans hfr), Book_V3_accept _ _ _ r0 rs hg' hfr]
        rw [Book_V3_accept _ _ _ r0 rs hg' hfr] at hinvC'
        refine ⟨rfl, hsz, ?_, ?_, ?_, hinvC'⟩
        · rw [htbl, hchoice]
        · rw [List.length_set]
          exact hlen_bf
        · intro row hrow
          rcases List.mem_or_eq_of_mem_set hrow with hmem | heq
          · exact hwf_bf _ hmem
          · rw [heq, setDays_length]
            exact hwf_bf _ (getD_mem _ _ _ (by rw [hlen_bf, hsz, hchoice]; omega))

lemma replay_sim : ∀ (reqs : List (Int × Int)) (hA hC : Hotel), Sim hA hC →
    replayA hA reqs = replayC hC reqs := by
  intro reqs
  induction reqs with
  | nil => intro hA hC _; rfl
  | cons req rest ih =>
      intro hA hC hsim
      cases req with
      | mk s e =>
          obtain ⟨hout, hsim'⟩ := Sim_step hA hC hsim s e
          simp only [replayA, replayC, hout, ih _ _ hsim']

lemma Sim_new (n : Nat) : Sim (new n) (new n) := by
  refine ⟨rfl, rfl, List.length_replicate .., ?_, UtilInv_new n⟩
  intro row hrow
  rw [List.eq_of_mem_replicate hrow]
  exact List.length_replicate ..

end Hotel

namespace Hotel

lemma getD_default {α : Type} (l : List α) (n : Nat) (d : α) (h : l.length ≤ n) :
    l.getD n d = d := by
  rw [List.getD_eq_getElem?_getD, List.getElem?_eq_none h, Option.getD_none]

lemma accept_inv_A (h : Hotel) (start end_ : Int)
    (hacc : (h.Book start end_).1 = "Accept") :
    (start < 0 || end_ ≥ (MaxDays : Int) || start > end_) = false ∧
    ∃ r0 rs, freeRoomsOf h.occupied_bf h.size start.toNat (end_.toNat + 1 - start.toNat)
      = r0 :: rs := by
  by_cases hg : (start < 0 || end_ ≥ (MaxDays : Int) || start > end_) = true
  · rw [Book_guard _ _ _ hg] at hacc
    exact absurd hacc (by simp)
  · have hg' : (start < 0 || end_ ≥ (MaxDays : Int) || start > end_) = false :=
      Bool.eq_false_iff.2 hg
    cases hfr : freeRoomsOf h.occupied_bf h.size start.toNat (end_.toNat + 1 - start.toNat)
      with
    | nil =>
        rw [Book_nofree _ _ _ hg' hfr] at hacc
        exact absurd hacc (by simp)
    | cons r0 rs => exact ⟨hg', r0, rs, rfl⟩

lemma accept_inv_V3 (h : Hotel) (start end_ : Int)
    (hacc : (h.Book_V3 start end_).1 = "Accept") :
    (start < 0 || end_ ≥ (MaxDays : Int) || start > end_) = false ∧
    ∃ r0 rs, freeRoomsOf h.occupied_bs h.size start.toNat (end_.toNat + 1 - start.toNat)
      = r0 :: rs := by
  by_cases hg : (start < 0 || end_ ≥ (MaxDays : Int) || start > end_) = true
  · rw [Book_V3_guard _ _ _ hg] at hacc
    exact absurd hacc (by simp)
  · have hg' : (start < 0 || end_ ≥ (MaxDays : Int) || start > end_) = false :=
      Bool.eq_false_iff.2 hg
    cases hfr : freeRoomsOf h.occupied_bs h.size start.toNat (end_.toNat + 1 - start.toNat)
      with
    | nil =>
        rw [Book_V3_nofree _ _ _ hg' hfr] at hacc
        exact absurd hacc (by simp)
    | cons r0 rs => exact ⟨hg', r0, rs, rfl⟩

lemma setDays_getD_mono (row : List Bool) (s n d : Nat)
    (hd : row.getD d false = true) :
    (setDays row s n).getD d false = true := by
  rw [setDays_getD]
  split_ifs
  · rfl
  · exact hd

lemma Book_mono_bf (h : Hotel) (start end_ : Int) (r d : Nat)
    (hd : (h.occupied_bf.getD r []).getD d false = true) :
    ((h.Book start end_).2.occupied_bf.getD r []).getD d false = true := by
  by_cases hg : (start < 0 || end_ ≥ (MaxDays : Int) || start > end_) = true
  · rw [Book_guard _ _ _ hg]
    exact hd
  · have hg' : (start < 0 || end_ ≥ (MaxDays : Int) || start > end_) = false :=
      Bool.eq_false_iff.2 hg
    cases hfr : freeRoomsOf h.occupied_bf h.size start.toNat (end_.toNat + 1 - start.toNat)
      with
    | nil =>
        rw [Book_nofree _ _ _ hg' hfr]
        exact hd
    | cons r0 rs =>
        rw [Book_accept _ _ _ r0 rs hg' hfr]
        dsimp only
        rw [getD_set']
        split_ifs with hcr
        · rw [← hcr.1] at hd
          exact setDays_getD_mono _ _ _ _ hd
        · exact hd

lemma Book_V3_mono_bs (h : Hotel) (start end_ : Int) (r d : Nat)
    (hd : (h.occupied_bs.getD r []).getD d false = true) :
    ((h.Book_V3 start end_).2.occupied_bs.getD r []).getD d false = true := by
  by_cases hg : (start < 0 || end_ ≥ (MaxDays : Int) || start > end_) = true
  · rw [Book_V3_guard _ _ _ hg]
    exact hd
  · have hg' : (start < 0 || end_ ≥ (MaxDays : Int) || start > end_) = false :=
      Bool.eq_false_iff.2 hg
    cases hfr : freeRoomsOf h.occupied_bs h.size start.toNat (end_.toNat + 1 - start.toNat)
      with
    | nil =>
        rw [Book_V3_nofree _ _ _ hg' hfr]
        exact hd
    | cons r0 rs =>
        rw [Book_V3_accept _ _ _ r0 rs hg' hfr]
        dsimp only
        rw [getD_set']
        split_ifs with hcr
        · rw [← hcr.1] at hd
          exact setDays_getD_mono _ _ _ _ hd
        · exact hd

lemma Book_frame_bs (h : Hotel) (start end_ : Int) :
    (h.Book start end_).2.occupied_bs = h.occupied_bs ∧
    (h.Book start end_).2.utilization = h.utilization := by
  by_cases hg : (start < 0 || end_ ≥ (MaxDays : Int) || start > end_) = true
  · rw [Book_guard _ _ _ hg]
    exact ⟨rfl, rfl⟩
  · have hg' : (start < 0 || end_ ≥ (MaxDays : Int) || start > end_) = false :=
      Bool.eq_false_iff.2 hg
    cases hfr : freeRoomsOf h.occupied_bf h.size start.toNat (end_.toNat + 1 - start.toNat)
      with
    | nil =>
        rw [Book_nofree _ _ _ hg' hfr]
        exact ⟨rfl, rfl⟩
    | cons r0 rs =>
        rw [Book_accept _ _ _ r0 rs hg' hfr]
        exact ⟨rfl, rfl⟩

lemma Book_V3_frame_bf (h : Hotel) (start end_ : Int) :
    (h.Book_V3 start end_).2.occupied_bf = h.occupied_bf := by
  by_cases hg : (start < 0 || end_ ≥ (MaxDays : Int) || start > end_) = true
  · rw [Book_V3_guard _ _ _ hg]
  · have hg' : (start < 0 || end_ ≥ (MaxDays : Int) || start > end_) = false :=
      Bool.eq_false_iff.2 hg
    cases hfr : freeRoomsOf h.occupied_bs h.size start.toNat (end_.toNat + 1 - start.toNat)
      with
    | nil => rw [Book_V3_nofree _ _ _ hg' hfr]
    | cons r0 rs => rw [Book_V3_accept _ _ _ r0 rs hg' hfr]

lemma applyCall_mono (h : Hotel) (call : Variant × Int × Int) (r d : Nat) :
    ((h.occupied_bf.getD r []).getD d false = true →
      ((applyCall h call).occupied_bf.getD r []).getD d false = true) ∧
    ((h.occupied_bs.getD r []).getD d false = true →
      ((applyCall h call).occupied_bs.getD r []).getD d false = true) := by
  obtain ⟨v, s, e⟩ := call
  cases v with
  | A =>
      refine ⟨Book_mono_bf h s e r d, ?_⟩
      intro hd
      rw [show applyCall h (Variant.A, s, e) = (h.Book s e).2 from rfl,
        (Book_frame_bs h s e).1]
      exact hd
  | B =>
      refine ⟨?_, ?_⟩
      · intro hd
        rw [show applyCall h (Variant.B, s, e) = (h.Book_V2 s e).2 from rfl,
          ← Book_eq_Book_V2]
        exact Book_mono_bf h s e r d hd
      · intro hd
        rw [show applyCall h (Variant.B, s, e) = (h.Book_V2 s e).2 from rfl,
          ← Book_eq_Book_V2, (Book_frame_bs h s e).1]
        exact hd
  | C =>
      refine ⟨?_, Book_V3_mono_bs h s e r d⟩
      intro hd
      rw [show applyCall h (Variant.C, s, e) = (h.Book_V3 s e).2 from rfl,
        Book_V3_frame_bf h s e]
      exact hd

lemma runCalls_mono : ∀ (calls : List (Variant × Int × Int)) (h : Hotel) (r d : Nat),
    ((h.occupied_bf.getD r []).getD d false = true →
      ((runCalls h calls).occupied_bf.getD r []).getD d false = true) ∧
    ((h.occupied_bs.getD r []).getD d false = true →
      ((runCalls h calls).occupied_bs.getD r []).getD d false = true) := by
  intro calls
  induction calls with
  | nil => intro h r d; exact ⟨id, id⟩
  | cons call rest ih =>
      intro h r d
      have hstep := applyCall_mono h call r d
      have hrest := ih (applyCall h call) r d
      rw [show runCalls h (call :: rest) = runCalls (applyCall h call) rest from rfl]
      exact ⟨fun hd => hrest.1 (hstep.1 hd), fun hd => hrest.2 (hstep.2 hd)⟩

lemma UtilInv_runV3 : ∀ (reqs : List (Int × Int)) (h : Hotel), UtilInv h →
    UtilInv (runV3 h reqs) := by
  intro reqs
  induction reqs with
  | nil => intro h hinv; exact hinv
  | cons req rest ih =>
      intro h hinv
      rw [show runV3 h (req :: rest) = runV3 (h.Book_V3 req.1 req.2).2 rest from rfl]
      exact ih _ (UtilInv_Book_V3 h hinv req.1 req.2)

end Hotel

namespace Hotel

lemma bestRoom_ChoiceMaximal (tbl : List (List Bool)) (size s n : Nat) (r0 : Nat)
    (rs : List Nat) (hfr : freeRoomsOf tbl size s n = r0 :: rs) (util : Nat → Nat)
    (hagree : ∀ r ∈ r0 :: rs, util r = countUtil (tbl.getD r [])) :
    ChoiceMaximal tbl size s n (bestRoom util r0 rs) := by
  have hmem := bestRoom_mem rs util r0
  refine ⟨hfr ▸ hmem, ?_, ?_⟩
  · intro r hr
    rw [hfr] at hr
    have hopt := bestRoom_opt rs util r0 r hr
    have h1 := hagree r hr
    have h2 := hagree _ hmem
    omega
  · intro r hr heq
    rw [hfr] at hr
    have hopt := bestRoom_opt rs util r0 r hr
    have h1 := hagree r hr
    have h2 := hagree _ hmem
    omega

end Hotel

open Hotel in
/-- C1: for every unitCount and every fixed request sequence, replaying the
sequence against a fresh Variant A instance (`Book`), a fresh Variant B
instance (`Book_V2`) and a fresh Variant C instance (`Book_V3`), each
constructed with that unitCount, yields the identical sequence of
Accept/Decline outcomes from all three variants. -/
theorem variants_outcome_equivalent (n : Nat) (reqs : List (Int × Int)) :
    replayA (new n) reqs = replayB (new n) reqs ∧
    replayA (new n) reqs = replayC (new n) reqs :=
  ⟨replayA_eq_replayB reqs (new n), replay_sim reqs (new n) (new n) (Sim_new n)⟩

open Hotel in
/-- C2: for every allocator state and every request with `start < 0`, or
`end >= 366`, or `start > end`, each of `Book`, `Book_V2`, `Book_V3`
returns Decline and leaves the whole state (both occupancy tables and the
utilization array) exactly unchanged. -/
theorem invalid_request_declines_unchanged (h : Hotel) (start end_ : Int)
    (hinvalid : start < 0 ∨ end_ ≥ (MaxDays : Int) ∨ start > end_) :
    h.Book start end_ = ("Decline", h) ∧
    h.Book_V2 start end_ = ("Decline", h) ∧
    h.Book_V3 start end_ = ("Decline", h) := by
  have hg : (start < 0 || end_ ≥ (MaxDays : Int) || start > end_) = true := by
    simp only [Bool.or_eq_true, decide_eq_true_eq]
    tauto
  exact ⟨Book_guard _ _ _ hg, Book_V2_guard _ _ _ hg, Book_V3_guard _ _ _ hg⟩

open Hotel in
/-- Witness for C2 at a concrete invalid input (`start = -4 < 0`, the
repository's Test 1a). -/
theorem invalid_request_declines_unchanged_witness :
    ((-4 : Int) < 0 ∨ (2 : Int) ≥ (MaxDays : Int) ∨ (-4 : Int) > 2) ∧
    (new 1).Book (-4) 2 = ("Decline", new 1) ∧
    (new 1).Book_V2 (-4) 2 = ("Decline", new 1) ∧
    (new 1).Book_V3 (-4) 2 = ("Decline", new 1) := by
  have h := invalid_request_declines_unchanged (new 1) (-4) 2 (Or.inl (by decide))
  exact ⟨Or.inl (by decide), h.1, h.2.1, h.2.2⟩

open Hotel in
/-- C3: after any sequence of `Book_V3` calls starting from a freshly
constructed `Hotel`, for every unit `r`, `utilization[r]` equals the
population count of the unit's occupancy bitmap `occupied_bs[r]`. -/
theorem utilization_eq_popcount (n : Nat) (reqs : List (Int × Int)) (r : Nat) :
    (runV3 (new n) reqs).utilization.getD r 0
      = ((runV3 (new n) reqs).occupied_bs.getD r []).count true := by
  obtain ⟨hlen_bs, hlen_u, hwf, hutil⟩ := UtilInv_runV3 reqs (new n) (UtilInv_new n)
  by_cases hr : r < (runV3 (new n) reqs).size
  · exact hutil r hr
  · rw [getD_default _ _ _ (by omega), getD_default _ _ _ (by omega)]
    rfl

open Hotel in
/-- C4: whenever a request is accepted (in any of the three variants), the
chosen unit is free on the requested range and, among all free units, has
the highest utilization counted over all 366 days of the horizon; on ties
the smallest unit index is chosen.  For Variant C the statement assumes the
variant's utilization-cache invariant, which holds in every reachable
Variant C state. -/
theorem accepted_choice_maximizes (h : Hotel) (start end_ : Int) :
    ((h.Book start end_).1 = "Accept" →
      ChoiceMaximal h.occupied_bf h.size start.toNat (end_.toNat + 1 - start.toNat)
        (bookChoice h start end_)) ∧
    ((h.Book_V2 start end_).1 = "Accept" →
      ChoiceMaximal h.occupied_bf h.size start.toNat (end_.toNat + 1 - start.toNat)
        (bookChoiceV2 h start end_)) ∧
    (UtilInv h → (h.Book_V3 start end_).1 = "Accept" →
      ChoiceMaximal h.occupied_bs h.size start.toNat (end_.toNat + 1 - start.toNat)
        (bookChoiceV3 h start end_)) := by
  refine ⟨?_, ?_, ?_⟩
  · intro hacc
    obtain ⟨hg', r0, rs, hfr⟩ := accept_inv_A h start end_ hacc
    rw [bookChoice_eq_best h start end_ r0 rs hfr]
    exact bestRoom_ChoiceMaximal _ _ _ _ r0 rs hfr _ (fun r _ => rfl)
  · intro hacc
    rw [← Book_eq_Book_V2] at hacc
    obtain ⟨hg', r0, rs, hfr⟩ := accept_inv_A h start end_ hacc
    rw [bookChoiceV2_eq_best h start end_ r0 rs hfr]
    exact bestRoom_ChoiceMaximal _ _ _ _ r0 rs hfr _ (fun r _ => rfl)
  · intro hinv hacc
    obtain ⟨hlen_bs, hlen_u, hwf, hutil⟩ := hinv
    obtain ⟨hg', r0, rs, hfr⟩ := accept_inv_V3 h start end_ hacc
    rw [bookChoiceV3_eq_best h start end_ r0 rs hfr]
    refine bestRoom_ChoiceMaximal _ _ _ _ r0 rs hfr _ ?_
    intro r hr
    have hrlt : r < h.size := (mem_freeRoomsOf.1 (hfr ▸ hr)).1
    rw [hutil r hrlt, countUtil_eq_count _ (hwf _ (getD_mem _ _ _ (by omega)))]

open Hotel in
/-- Witness for C4: a fresh 2-unit hotel accepts `(0, 0)` in all three
variants, and the maximality property holds for the chosen unit. -/
theorem accepted_choice_maximizes_witness :
    ((new 2).Book 0 0).1 = "Accept" ∧
    ((new 2).Book_V2 0 0).1 = "Accept" ∧
    UtilInv (new 2) ∧
    ((new 2).Book_V3 0 0).1 = "Accept" ∧
    (ChoiceMaximal (new 2).occupied_bf (new 2).size 0 1 (bookChoice (new 2) 0 0) ∧
     ChoiceMaximal (new 2).occupied_bf (new 2).size 0 1 (bookChoiceV2 (new 2) 0 0) ∧
     ChoiceMaximal (new 2).occupied_bs (new 2).size 0 1 (bookChoiceV3 (new 2) 0 0)) := by
  have h := accepted_choice_maximizes (new 2) 0 0
  exact ⟨by decide, by decide, UtilInv_new 2, by decide,
    h.1 (by decide), h.2.1 (by decide), h.2.2 (UtilInv_new 2) (by decide)⟩


open Hotel in
/-- C5: every reserve call is all-or-nothing: it either returns Accept and
marks every day in `[start, end]` occupied on exactly one unit (with the
utilization counter updated by `end - start + 1` in Variant C), or it
returns Decline and the state after the call equals the state before; no
call marks only part of the range or touches more than one unit. -/
theorem reserve_all_or_nothing (h : Hotel) (start end_ : Int)
    (hwf_bf : RowsWF h.occupied_bf) (hlen_bf : h.occupied_bf.length = h.size)
    (hwf_bs : RowsWF h.occupied_bs) (hlen_bs : h.occupied_bs.length = h.size)
    (hlen_u : h.utilization.length = h.size) :
    (h.Book start end_ = ("Decline", h) ∨
      ((h.Book start end_).1 = "Accept" ∧ ∃ c, c < h.size ∧
        (∀ r, r ≠ c →
          (h.Book start end_).2.occupied_bf.getD r [] = h.occupied_bf.getD r []) ∧
        (∀ d : Nat, start ≤ (d : Int) → (d : Int) ≤ end_ →
          ((h.Book start end_).2.occupied_bf.getD c []).getD d false = true) ∧
        (∀ d : Nat, ¬(start ≤ (d : Int) ∧ (d : Int) ≤ end_) →
          ((h.Book start end_).2.occupied_bf.getD c []).getD d false
            = (h.occupied_bf.getD c []).getD d false))) ∧
    (h.Book_V2 start end_ = ("Decline", h) ∨
      ((h.Book_V2 start end_).1 = "Accept" ∧ ∃ c, c < h.size ∧
        (∀ r, r ≠ c →
          (h.Book_V2 start end_).2.occupied_bf.getD r [] = h.occupied_bf.getD r []) ∧
        (∀ d : Nat, start ≤ (d : Int) → (d : Int) ≤ end_ →
          ((h.Book_V2 start end_).2.occupied_bf.getD c []).getD d false = true) ∧
        (∀ d : Nat, ¬(start ≤ (d : Int) ∧ (d : Int) ≤ end_) →
          ((h.Book_V2 start end_).2.occupied_bf.getD c []).getD d false
            = (h.occupied_bf.getD c []).getD d false))) ∧
    (h.Book_V3 start end_ = ("Decline", h) ∨
      ((h.Book_V3 start end_).1 = "Accept" ∧ ∃ c, c < h.size ∧
        (∀ r, r ≠ c →
          (h.Book_V3 start end_).2.occupied_bs.getD r [] = h.occupied_bs.getD r []) ∧
        (∀ d : Nat, start ≤ (d : Int) → (d : Int) ≤ end_ →
          ((h.Book_V3 start end_).2.occupied_bs.getD c []).getD d false = true) ∧
        (∀ d : Nat, ¬(start ≤ (d : Int) ∧ (d : Int) ≤ end_) →
          ((h.Book_V3 start end_).2.occupied_bs.getD c []).getD d false
            = (h.occupied_bs.getD c []).getD d false) ∧
        (h.Book_V3 start end_).2.utilization.getD c 0
          = h.utilization.getD c 0 + (end_.toNat + 1 - start.toNat) ∧
        (∀ r, r ≠ c →
          (h.Book_V3 start end_).2.utilization.getD r 0 = h.utilization.getD r 0))) := by
  by_cases hg : (start < 0 || end_ ≥ (MaxDays : Int) || start > end_) = true
  · rw [Book_guard _ _ _ hg, Book_V2_guard _ _ _ hg, Book_V3_guard _ _ _ hg]
    exact ⟨Or.inl rfl, Or.inl rfl, Or.inl rfl⟩
  · have hg' : (start < 0 || end_ ≥ (MaxDays : Int) || start > end_) = false :=
      Bool.eq_false_iff.2 hg
    obtain ⟨hs0, hse, he⟩ := guard_bounds hg
    have he' : end_ < 366 := by simpa [MaxDays] using he
    refine ⟨?_, ?_, ?_⟩
    · cases hfr : freeRoomsOf h.occupied_bf h.size start.toNat (end_.toNat + 1 - start.toNat)
        with
      | nil => exact Or.inl (Book_nofree _ _ _ hg' hfr)
      | cons r0 rs =>
          rw [Book_accept _ _ _ r0 rs hg' hfr]
          refine Or.inr ⟨rfl, bookChoice h start end_, ?_, ?_, ?_, ?_⟩
          · rw [bookChoice_eq_best h start end_ r0 rs hfr]
            exact (mem_freeRoomsOf.1 (hfr ▸ bestRoom_mem rs _ r0)).1
          · intro r hr
            dsimp only
            rw [getD_set', if_neg (by tauto)]
          · have hc_lt : bookChoice h start end_ < h.size := by
              rw [bookChoice_eq_best h start end_ r0 rs hfr]
              exact (mem_freeRoomsOf.1 (hfr ▸ bestRoom_mem rs _ r0)).1
            have hrow_len : (h.occupied_bf.getD (bookChoice h start end_) []).length
                = MaxDays := hwf_bf _ (getD_mem _ _ _ (by omega))
            intro d h1 h2
            dsimp only
            rw [getD_set', if_pos ⟨rfl, by omega⟩, setDays_getD,
              if_pos ⟨by omega, by omega, by rw [hrow_len, show MaxDays = 366 from rfl]; omega⟩]
          · intro d hd
            dsimp only
            rw [getD_set']
            split_ifs with hc
            · rw [setDays_getD, if_neg (by omega)]
            · rfl
    · cases hfr : freeRoomsOf h.occupied_bf h.size start.toNat (end_.toNat + 1 - start.toNat)
        with
      | nil => exact Or.inl ((Book_eq_Book_V2 h start end_) ▸ Book_nofree _ _ _ hg' hfr)
      | cons r0 rs =>
          rw [← Book_eq_Book_V2, Book_accept _ _ _ r0 rs hg' hfr]
          refine Or.inr ⟨rfl, bookChoice h start end_, ?_, ?_, ?_, ?_⟩
          · rw [bookChoice_eq_best h start end_ r0 rs hfr]
            exact (mem_freeRoomsOf.1 (hfr ▸ bestRoom_mem rs _ r0)).1
          · intro r hr
            dsimp only
            rw [getD_set', if_neg (by tauto)]
          · have hc_lt : bookChoice h start end_ < h.size := by
              rw [bookChoice_eq_best h start end_ r0 rs hfr]
              exact (mem_freeRoomsOf.1 (hfr ▸ bestRoom_mem rs _ r0)).1
            have hrow_len : (h.occupied_bf.getD (bookChoice h start end_) []).length
                = MaxDays := hwf_bf _ (getD_mem _ _ _ (by omega))
            intro d h1 h2
            dsimp only
            rw [getD_set', if_pos ⟨rfl, by omega⟩, setDays_getD,
              if_pos ⟨by omega, by omega, by rw [hrow_len, show MaxDays = 366 from rfl]; omega⟩]
          · intro d hd
            dsimp only
            rw [getD_set']
            split_ifs with hc
            · rw [setDays_getD, if_neg (by omega)]
            · rfl
    · cases hfr : freeRoomsOf h.occupied_bs h.size start.toNat (end_.toNat + 1 - start.toNat)
        with
      | nil => exact Or.inl (Book_V3_nofree _ _ _ hg' hfr)
      | cons r0 rs =>
          rw [Book_V3_accept _ _ _ r0 rs hg' hfr]
          have hc_lt : bookChoiceV3 h start end_ < h.size := by
            rw [bookChoiceV3_eq_best h start end_ r0 rs hfr]
            exact (mem_freeRoomsOf.1 (hfr ▸ bestRoom_mem rs _ r0)).1
          have hrow_len : (h.occupied_bs.getD (bookChoiceV3 h start end_) []).length
              = MaxDays := hwf_bs _ (getD_mem _ _ _ (by omega))
          refine Or.inr ⟨rfl, bookChoiceV3 h start end_, hc_lt, ?_, ?_, ?_, ?_, ?_⟩
          · intro r hr
            dsimp only
            rw [getD_set', if_neg (by tauto)]
          · intro d h1 h2
            dsimp only
            rw [getD_set', if_pos ⟨rfl, by omega⟩, setDays_getD,
              if_pos ⟨by omega, by omega, by rw [hrow_len, show MaxDays = 366 from rfl]; omega⟩]
          · intro d hd
            dsimp only
            rw [getD_set']
            split_ifs with hc
            · rw [setDays_getD, if_neg (by omega)]
            · rfl
          · dsimp only
            rw [getD_set', if_pos ⟨rfl, by omega⟩]
          · intro r hr
            dsimp only
            rw [getD_set', if_neg (by tauto)]

namespace Hotel

lemma RowsWF_new_bf (n : Nat) : RowsWF (new n).occupied_bf := by
  intro row hrow
  rw [List.eq_of_mem_replicate hrow]
  exact List.length_replicate ..

lemma RowsWF_new_bs (n : Nat) : RowsWF (new n).occupied_bs := by
  intro row hrow
  rw [List.eq_of_mem_replicate hrow]
  exact List.length_replicate ..

end Hotel

open Hotel in
/-- Witness for C5: a fresh single-unit hotel on request `(0, 0)`. -/
theorem reserve_all_or_nothing_witness :
    RowsWF (new 1).occupied_bf ∧ (new 1).occupied_bf.length = (new 1).size ∧
    RowsWF (new 1).occupied_bs ∧ (new 1).occupied_bs.length = (new 1).size ∧
    (new 1).utilization.length = (new 1).size ∧
    (((new 1).Book 0 0).1 = "Accept" ∨ (new 1).Book 0 0 = ("Decline", new 1)) := by
  have h := reserve_all_or_nothing (new 1) 0 0 (RowsWF_new_bf 1) (by decide)
    (RowsWF_new_bs 1) (by decide) (by decide)
  refine ⟨RowsWF_new_bf 1, by decide, RowsWF_new_bs 1, by decide, by decide, ?_⟩
  rcases h.1 with hd | ha
  · exact Or.inr hd
  · exact Or.inl ha.1

open Hotel in
/-- C6: for every accepted request in every variant, the unit chosen for the
booking had no day in `[start, end]` marked occupied in the state
immediately before the call (no double booking). -/
theorem accepted_unit_was_free (h : Hotel) (start end_ : Int) :
    ((h.Book start end_).1 = "Accept" → ∀ d : Nat, start ≤ (d : Int) → (d : Int) ≤ end_ →
      (h.occupied_bf.getD (bookChoice h start end_) []).getD d false = false) ∧
    ((h.Book_V2 start end_).1 = "Accept" → ∀ d : Nat, start ≤ (d : Int) → (d : Int) ≤ end_ →
      (h.occupied_bf.getD (bookChoiceV2 h start end_) []).getD d false = false) ∧
    ((h.Book_V3 start end_).1 = "Accept" → ∀ d : Nat, start ≤ (d : Int) → (d : Int) ≤ end_ →
      (h.occupied_bs.getD (bookChoiceV3 h start end_) []).getD d false = false) := by
  refine ⟨?_, ?_, ?_⟩
  · intro hacc d h1 h2
    obtain ⟨hg', r0, rs, hfr⟩ := accept_inv_A h start end_ hacc
    obtain ⟨hs0, hse, he⟩ := guard_bounds (by rw [hg']; exact Bool.false_ne_true)
    have hfree : isFreeRange (h.occupied_bf.getD (bookChoice h start end_) [])
        start.toNat (end_.toNat + 1 - start.toNat) = true := by
      rw [bookChoice_eq_best h start end_ r0 rs hfr]
      exact (mem_freeRoomsOf.1 (hfr ▸ bestRoom_mem rs _ r0)).2
    exact (isFreeRange_iff _ _ _).1 hfree d (by omega) (by omega)
  · intro hacc d h1 h2
    rw [← Book_eq_Book_V2] at hacc
    obtain ⟨hg', r0, rs, hfr⟩ := accept_inv_A h start end_ hacc
    obtain ⟨hs0, hse, he⟩ := guard_bounds (by rw [hg']; exact Bool.false_ne_true)
    have hfree : isFreeRange (h.occupied_bf.getD (bookChoiceV2 h start end_) [])
        start.toNat (end_.toNat + 1 - start.toNat) = true := by
      rw [bookChoiceV2_eq_best h start end_ r0 rs hfr]
      exact (mem_freeRoomsOf.1 (hfr ▸ bestRoom_mem rs _ r0)).2
    exact (isFreeRange_iff _ _ _).1 hfree d (by omega) (by omega)
  · intro hacc d h1 h2
    obtain ⟨hg', r0, rs, hfr⟩ := accept_inv_V3 h start end_ hacc
    obtain ⟨hs0, hse, he⟩ := guard_bounds (by rw [hg']; exact Bool.false_ne_true)
    have hfree : isFreeRange (h.occupied_bs.getD (bookChoiceV3 h start end_) [])
        start.toNat (end_.toNat + 1 - start.toNat) = true := by
      rw [bookChoiceV3_eq_best h start end_ r0 rs hfr]
      exact (mem_freeRoomsOf.1 (hfr ▸ bestRoom_mem rs _ r0)).2
    exact (isFreeRange_iff _ _ _).1 hfree d (by omega) (by omega)

open Hotel in
/-- Witness for C6: the fresh 2-unit hotel accepts `(0, 0)` in each variant
and the chosen unit was free on day 0. -/
theorem accepted_unit_was_free_witness :
    ((new 2).Book 0 0).1 = "Accept" ∧
    ((new 2).Book_V2 0 0).1 = "Accept" ∧
    ((new 2).Book_V3 0 0).1 = "Accept" ∧
    ((new 2).occupied_bf.getD (bookChoice (new 2) 0 0) []).getD 0 false = false ∧
    ((new 2).occupied_bf.getD (bookChoiceV2 (new 2) 0 0) []).getD 0 false = false ∧
    ((new 2).occupied_bs.getD (bookChoiceV3 (new 2) 0 0) []).getD 0 false = false := by
  have h := accepted_unit_was_free (new 2) 0 0
  exact ⟨by decide, by decide, by decide,
    h.1 (by decide) 0 (by decide) (by decide),
    h.2.1 (by decide) 0 (by decide) (by decide),
    h.2.2 (by decide) 0 (by decide) (by decide)⟩

open Hotel in
/-- C7: occupancy is monotonically non-decreasing in every variant: for
every sequence of reserve calls (of any mix of variants), every unit and
every day, a day-slot marked occupied in either occupancy table stays
occupied after the whole sequence; no call ever clears an occupied slot. -/
theorem occupancy_monotone (h : Hotel) (calls : List (Variant × Int × Int)) (r d : Nat) :
    ((h.occupied_bf.getD r []).getD d false = true →
      ((runCalls h calls).occupied_bf.getD r []).getD d false = true) ∧
    ((h.occupied_bs.getD r []).getD d false = true →
      ((runCalls h calls).occupied_bs.getD r []).getD d false = true) :=
  runCalls_mono calls h r d

open Hotel in
/-- Witness for C7: a 1-unit hotel with day 0 booked in both tables keeps it
booked after further calls of Variant A and Variant C. -/
theorem occupancy_monotone_witness :
    ((Hotel.mk 1 [[true]] [[true]] [1]).occupied_bf.getD 0 []).getD 0 false = true ∧
    ((Hotel.mk 1 [[true]] [[true]] [1]).occupied_bs.getD 0 []).getD 0 false = true ∧
    (((runCalls (Hotel.mk 1 [[true]] [[true]] [1])
        [(Variant.A, 0, 0), (Variant.C, 0, 0)]).occupied_bf.getD 0 []).getD 0 false = true ∧
     ((runCalls (Hotel.mk 1 [[true]] [[true]] [1])
        [(Variant.A, 0, 0), (Variant.C, 0, 0)]).occupied_bs.getD 0 []).getD 0 false = true) := by
  have h := occupancy_monotone (Hotel.mk 1 [[true]] [[true]] [1])
    [(Variant.A, 0, 0), (Variant.C, 0, 0)] 0 0
  exact ⟨by decide, by decide, h.1 (by decide), h.2 (by decide)⟩

open Hotel in
/-- C8: on a fresh 2-unit allocator, the request sequence of the
repository's Test 5 yields exactly the outcome sequence
Accept, Accept, Decline, Accept, Accept, Accept, Accept, Decline, Accept. -/
theorem test5_outcomes :
    replayC (new 2) [(1, 3), (0, 4), (2, 3), (5, 5), (4, 10), (10, 10), (6, 7), (8, 10), (8, 9)]
      = ["Accept", "Accept", "Decline", "Accept", "Accept", "Accept", "Accept", "Decline",
        "Accept"] := by
  decide

open Hotel in
/-- C9: on a hotel constructed with `unitCount = 0`, every reserve call in
every variant returns Decline and leaves the (empty) state unchanged — even
for ranges satisfying `0 <= start <= end <= 365`. -/
theorem zero_units_always_declines (start end_ : Int) :
    (new 0).Book start end_ = ("Decline", new 0) ∧
    (new 0).Book_V2 start end_ = ("Decline", new 0) ∧
    (new 0).Book_V3 start end_ = ("Decline", new 0) := by
  by_cases hg : (start < 0 || end_ ≥ (MaxDays : Int) || start > end_) = true
  · exact ⟨Book_guard _ _ _ hg, Book_V2_guard _ _ _ hg, Book_V3_guard _ _ _ hg⟩
  · have hg' : (start < 0 || end_ ≥ (MaxDays : Int) || start > end_) = false :=
      Bool.eq_false_iff.2 hg
    refine ⟨Book_nofree _ _ _ hg' rfl, ?_, Book_V3_nofree _ _ _ hg' rfl⟩
    rw [← Book_eq_Book_V2]
    exact Book_nofree _ _ _ hg' rfl

open Hotel in
/-- C10: `Book` and `Book_V2` read and write only the shared table
`occupied_bf` (leaving `occupied_bs` and `utilization` unchanged, and with
outcome and `occupied_bf` effect independent of them), while `Book_V3`
reads and writes only `occupied_bs` and `utilization` (leaving
`occupied_bf` unchanged, and with outcome and effect independent of it):
Variants A and B observe each other's bookings on one instance, while
Variant C's state is disjoint from theirs. -/
theorem variant_state_disjointness (h : Hotel) (start end_ : Int)
    (bf' bs' : List (List Bool)) (u' : List Nat) :
    (h.Book start end_).2.occupied_bs = h.occupied_bs ∧
    (h.Book start end_).2.utilization = h.utilization ∧
    (h.Book_V2 start end_).2.occupied_bs = h.occupied_bs ∧
    (h.Book_V2 start end_).2.utilization = h.utilization ∧
    (h.Book_V3 start end_).2.occupied_bf = h.occupied_bf ∧
    ((Hotel.mk h.size h.occupied_bf bs' u').Book start end_).1 = (h.Book start end_).1 ∧
    ((Hotel.mk h.size h.occupied_bf bs' u').Book start end_).2.occupied_bf
      = (h.Book start end_).2.occupied_bf ∧
    ((Hotel.mk h.size h.occupied_bf bs' u').Book_V2 start end_).1
      = (h.Book_V2 start end_).1 ∧
    ((Hotel.mk h.size h.occupied_bf bs' u').Book_V2 start end_).2.occupied_bf
      = (h.Book_V2 start end_).2.occupied_bf ∧
    ((Hotel.mk h.size bf' h.occupied_bs h.utilization).Book_V3 start end_).1
      = (h.Book_V3 start end_).1 ∧
    ((Hotel.mk h.size bf' h.occupied_bs h.utilization).Book_V3 start end_).2.occupied_bs
      = (h.Book_V3 start end_).2.occupied_bs ∧
    ((Hotel.mk h.size bf' h.occupied_bs h.utilization).Book_V3 start end_).2.utilization
      = (h.Book_V3 start end_).2.utilization := by
  have hfrA := Book_frame_bs h start end_
  refine ⟨hfrA.1, hfrA.2, ?_, ?_, Book_V3_frame_bf h start end_, ?_⟩
  · rw [← Book_eq_Book_V2]
    exact hfrA.1
  · rw [← Book_eq_Book_V2]
    exact hfrA.2
  · rw [← Book_eq_Book_V2 h, ← Book_eq_Book_V2 (Hotel.mk h.size h.occupied_bf bs' u')]
    by_cases hg : (start < 0 || end_ ≥ (MaxDays : Int) || start > end_) = true
    · rw [Book_guard h _ _ hg, Book_guard (Hotel.mk h.size h.occupied_bf bs' u') _ _ hg,
        Book_V3_guard h _ _ hg, Book_V3_guard (Hotel.mk h.size bf' h.occupied_bs h.utilization) _ _ hg]
      exact ⟨rfl, rfl, rfl, rfl, rfl, rfl, rfl⟩
    · have hg' : (start < 0 || end_ ≥ (MaxDays : Int) || start > end_) = false :=
        Bool.eq_false_iff.2 hg
      cases hfr : freeRoomsOf h.occupied_bf h.size start.toNat (end_.toNat + 1 - start.toNat)
        with
      | nil =>
          rw [Book_nofree h _ _ hg' hfr,
            Book_nofree (Hotel.mk h.size h.occupied_bf bs' u') _ _ hg' hfr]
          cases hfr2 : freeRoomsOf h.occupied_bs h.size start.toNat
            (end_.toNat + 1 - start.toNat) with
          | nil =>
              rw [Book_V3_nofree h _ _ hg' hfr2,
                Book_V3_nofree (Hotel.mk h.size bf' h.occupied_bs h.utilization) _ _ hg' hfr2]
              exact ⟨rfl, rfl, rfl, rfl, rfl, rfl, rfl⟩
          | cons q0 qs =>
              rw [Book_V3_accept h _ _ q0 qs hg' hfr2,
                Book_V3_accept (Hotel.mk h.size bf' h.occupied_bs h.utilization) _ _ q0 qs
                  hg' hfr2]
              exact ⟨rfl, rfl, rfl, rfl, rfl, rfl, rfl⟩
      | cons r0 rs =>
          rw [Book_accept h _ _ r0 rs hg' hfr,
            Book_accept (Hotel.mk h.size h.occupied_bf bs' u') _ _ r0 rs hg' hfr]
          cases hfr2 : freeRoomsOf h.occupied_bs h.size start.toNat
            (end_.toNat + 1 - start.toNat) with
          | nil =>
              rw [Book_V3_nofree h _ _ hg' hfr2,
                Book_V3_nofree (Hotel.mk h.size bf' h.occupied_bs h.utilization) _ _ hg' hfr2]
              exact ⟨rfl, rfl, rfl, rfl, rfl, rfl, rfl⟩
          | cons q0 qs =>
              rw [Book_V3_accept h _ _ q0 qs hg' hfr2,
                Book_V3_accept (Hotel.mk h.size bf' h.occupied_bs h.utilization) _ _ q0 qs
                  hg' hfr2]
              exact ⟨rfl, rfl, rfl, rfl, rfl, rfl, rfl⟩
